import Mathlib

/-!
Verification of the presence-tracking backend (check-in/check-out ledger,
vehicle-presence mirror, monthly visit aggregator, account approval and
incident workflow).  The definitions below are shallow embeddings of the
JavaScript source files: `src/models/Log.js`, `src/models/AccessLog.js`,
`src/models/MonthlyVisit.js`, `src/routes/logs.js`, `src/routes/admin.js`,
`src/routes/userRoutes.js`, the auth routes, the incident routes and the
access-log routes.  Times are integer milliseconds (JavaScript `Date`
arithmetic); the store is a list of records; Mongoose `findOne` is "first
match in insertion order"; `findOneAndUpdate`/`updateMany`/`save` are
explicit list updates.
-/

namespace Backend

/-- A JavaScript `Date` value, carrying the fields the source extracts from
it: the epoch milliseconds (`getTime`, used by subtraction), the
`toISOString().slice(0, 7)` month key, and `getFullYear()`. -/
structure JsDate where
  ms : Int
  isoYM : String
  year : Int
deriving Repr, DecidableEq

/-! ## Monthly visit aggregator (`models/MonthlyVisit.js`) -/

/-- One `MonthlyVisit` document: `{supplier, month, year, visitCount, lastVisit}`. -/
structure MVRec where
  supplier : Nat
  month : String
  year : Int
  visitCount : Int
  lastVisit : Option Int
deriving Repr, DecidableEq

/-- `findOne({supplier, month})`: first matching record. -/
def findOneMV (mvs : List MVRec) (sup : Nat) (month : String) : Option MVRec :=
  mvs.find? (fun r => r.supplier == sup && r.month == month)

/-- The `$inc`/`$set` part of `incrementVisit`'s `findOneAndUpdate`:
increment `visitCount` by 1, set `lastVisit` and `year`. -/
def applyIncrement (r : MVRec) (d : JsDate) : MVRec :=
  { r with visitCount := r.visitCount + 1, lastVisit := some d.ms, year := d.year }

/-- The document created by the upsert branch of `incrementVisit` when no
record exists for `(supplier, month)`: `$inc` on a missing field creates it
with the increment value, so `visitCount = 1`. -/
def freshMV (sup : Nat) (d : JsDate) : MVRec :=
  { supplier := sup, month := d.isoYM, year := d.year, visitCount := 1, lastVisit := some d.ms }

/-- `MonthlyVisit.incrementVisit(supplierId, visitDate)`: an atomic
`findOneAndUpdate({supplier, month}, {$inc: {visitCount: 1}, $set: ...},
{upsert: true, new: true})`.  Updates the first matching record in place, or
appends a fresh one; returns the new store and the post-update document. -/
def incrementVisit : List MVRec → Nat → JsDate → List MVRec × MVRec
  | [], sup, d => ([freshMV sup d], freshMV sup d)
  | r :: rest, sup, d =>
    if r.supplier == sup && r.month == d.isoYM then
      (applyIncrement r d :: rest, applyIncrement r d)
    else
      let p := incrementVisit rest sup d
      (r :: p.fst, p.snd)

/-- `MonthlyVisit.getVisitCount(supplierId, month)`: `record ? record.visitCount : 0`. -/
def getVisitCount (mvs : List MVRec) (sup : Nat) (month : String) : Int :=
  match findOneMV mvs sup month with
  | some r => r.visitCount
  | none => 0

/-- `n` sequential calls of `incrementVisit` for the same supplier and date. -/
def incrementN (mvs : List MVRec) (sup : Nat) (d : JsDate) : Nat → List MVRec
  | 0 => mvs
  | n + 1 => (incrementVisit (incrementN mvs sup d n) sup d).fst

/-! ## Presence ledger (`models/Log.js`, `routes/logs.js`) -/

/-- One `Log` document.  `logId` stands for the unique `_id`/`id_log`;
`entryTime`/`exitTime` are optional epoch-millisecond fields (`none` is a
missing field, matching `$exists: false`). -/
structure LogRec where
  logId : Nat
  person : Nat
  personType : String
  status : String
  entryTime : Option Int
  exitTime : Option Int
  duration : Int
  logDate : Int
  notes : String
  recordedBy : Nat
deriving Repr, DecidableEq

/-- One `Vehiculog` document (`models/VehicleLog.js`): `entry_time` is
required, `exit_time` defaults to null. -/
structure VLogRec where
  vehicle : Nat
  log : Nat
  entry_time : Int
  exit_time : Option Int
  vlog_date : Int
  parkingLocation : String
  vehicleNotes : String
  recordedBy : Nat
deriving Repr, DecidableEq

/-- The open-entry condition used by both check-in and check-out queries:
`status: {$in: ['entry', 'present']}, exitTime: {$exists: false}`. -/
def isOpenLog (l : LogRec) : Bool :=
  (l.status == "entry" || l.status == "present") && l.exitTime == none

/-- `Log.findOne({person, personType, status: {$in: [...]}, exitTime:
{$exists: false}})`. -/
def findActiveLog (logs : List LogRec) (pid : Nat) (pt : String) : Option LogRec :=
  logs.find? (fun l => l.person == pid && l.personType == pt && isOpenLog l)

/-- Number of open entries stored for a `(person, personType)` pair. -/
def countOpenFor (logs : List LogRec) (pid : Nat) (pt : String) : Nat :=
  (logs.filter (fun l => l.person == pid && l.personType == pt && isOpenLog l)).length

/-- The persistent store the presence routes touch. -/
structure DB where
  logs : List LogRec
  vlogs : List VLogRec
  monthly : List MVRec
deriving Repr, DecidableEq

/-- The request body of `POST /checkin`. -/
structure CheckinReq where
  personId : Option Nat
  personType : Option String
  vehicleId : Option Nat
  entryTime : Option JsDate
  notes : Option String
  parkingLocation : Option String
deriving Repr, DecidableEq

/-- Store writes performed by a check-in, in program order. -/
inductive Event
  | logSaved (logId : Nat)
  | monthlyIncremented (sup : Nat)
  | monthlyIncrementFailed (sup : Nat)
  | vehicleLogSaved (logId : Nat)
deriving Repr, DecidableEq

inductive CheckinError
  | missingFields
  | invalidPersonType
  | alreadyCheckedIn
deriving Repr, DecidableEq

/-- The successful check-in response: the new store, the saved log, the
optional vehicle log, the `monthlyVisitCount` field of the JSON response
(`monthlyVisitRecord ? monthlyVisitRecord.visitCount : null`), and the
ordered trace of store writes. -/
structure CheckinOk where
  db : DB
  log : LogRec
  vehicleLog : Option VLogRec
  monthlyVisitCount : Option Int
  events : List Event
deriving Repr, DecidableEq

/-- The body of `POST /checkin` after its guards have passed: save the log,
then best-effort increment the monthly counter for suppliers (a failure is
caught and leaves `monthlyVisitRecord` null), then save the vehicle log if a
vehicle was supplied.  `incrementFails` models the store call inside the
`try`/`catch` throwing. -/
def checkinApply (db : DB) (pid : Nat) (pt : String) (req : CheckinReq) (now : JsDate)
    (freshLogId : Nat) (recordedBy : Nat) (incrementFails : Bool) : CheckinOk :=
  let visitDate := req.entryTime.getD now
  let newLog : LogRec :=
    { logId := freshLogId, person := pid, personType := pt, status := "entry",
      entryTime := some visitDate.ms, exitTime := none, duration := 0,
      logDate := visitDate.ms, notes := req.notes.getD "", recordedBy := recordedBy }
  let monthly1 :=
    if pt == "Supplier" && !incrementFails then (incrementVisit db.monthly pid visitDate).fst
    else db.monthly
  let mvRecord : Option MVRec :=
    if pt == "Supplier" && !incrementFails then some (incrementVisit db.monthly pid visitDate).snd
    else none
  let mvEvents : List Event :=
    if pt == "Supplier" then
      [if incrementFails then Event.monthlyIncrementFailed pid else Event.monthlyIncremented pid]
    else []
  let vlog : Option VLogRec :=
    match req.vehicleId with
    | some v =>
      some { vehicle := v, log := freshLogId, entry_time := visitDate.ms, exit_time := none,
             vlog_date := visitDate.ms, parkingLocation := req.parkingLocation.getD "",
             vehicleNotes := "", recordedBy := recordedBy }
    | none => none
  let vlogs1 := match vlog with | some w => db.vlogs ++ [w] | none => db.vlogs
  let vEvents : List Event :=
    match req.vehicleId with | some _ => [Event.vehicleLogSaved freshLogId] | none => []
  { db := { logs := db.logs ++ [newLog], vlogs := vlogs1, monthly := monthly1 },
    log := newLog, vehicleLog := vlog,
    monthlyVisitCount := mvRecord.map (fun r => r.visitCount),
    events := Event.logSaved freshLogId :: (mvEvents ++ vEvents) }

/-- `POST /checkin` (`routes/logs.js`): validates the required fields and
the person type, rejects when an open entry already exists for the pair,
otherwise performs the writes of `checkinApply`. -/
def checkin (db : DB) (req : CheckinReq) (now : JsDate) (freshLogId : Nat)
    (recordedBy : Nat) (incrementFails : Bool) : Except CheckinError CheckinOk :=
  match req.personId, req.personType with
  | some pid, some pt =>
    if !(["Supplier", "Worker", "LeoniPersonnel"].contains pt) then
      Except.error CheckinError.invalidPersonType
    else
      match findActiveLog db.logs pid pt with
      | some _ => Except.error CheckinError.alreadyCheckedIn
      | none => Except.ok (checkinApply db pid pt req now freshLogId recordedBy incrementFails)
  | _, _ => Except.error CheckinError.missingFields

inductive CheckoutError
  | noActiveEntry
deriving Repr, DecidableEq

structure CheckoutOk where
  db : DB
  log : LogRec
deriving Repr, DecidableEq

/-- The mutation `POST /checkout` performs on the active log: set
`exitTime` to the provided time or now, set `status` to `exit`, compute
`duration = Math.max(0, Math.floor((exitTime - entryTime) / 60000))`
(clamped at 0, or 0 when `entryTime` is absent), and append non-empty notes
to the existing notes with a " | " separator.  The `pre('save')` hook of
`Log.js` recomputes the same clamped duration, so saving changes nothing
more. -/
def checkoutUpdate (l : LogRec) (exitT : Option Int) (notes : Option String) (now : Int) :
    LogRec :=
  let cet := exitT.getD now
  let dur : Int :=
    match l.entryTime with
    | some et => max 0 (Int.fdiv (cet - et) 60000)
    | none => 0
  let newNotes :=
    match notes with
    | some s =>
      if s.isEmpty then l.notes
      else if l.notes.isEmpty then s else l.notes ++ " | " ++ s
    | none => l.notes
  { l with exitTime := some cet, status := "exit", duration := dur, notes := newNotes }

/-- `save()` of a fetched document: replace the record with the matching id. -/
def saveLog (logs : List LogRec) (l : LogRec) : List LogRec :=
  logs.map (fun x => if x.logId == l.logId then l else x)

/-- The vehicle-log mirror step of `POST /checkout`:
`Vehiculog.findOne({log: activeLog._id})`, then set its `exit_time` to the
parent's new `exitTime` (and overwrite `vehicleNotes` when notes were
provided) and save it.  Only the first matching document is updated. -/
def updateFirstVlog : List VLogRec → Nat → Int → Option String → List VLogRec
  | [], _, _, _ => []
  | w :: rest, lid, cet, notes =>
    if w.log == lid then
      let vn :=
        match notes with
        | some s => if s.isEmpty then w.vehicleNotes else s
        | none => w.vehicleNotes
      { w with exit_time := some cet, vehicleNotes := vn } :: rest
    else w :: updateFirstVlog rest lid cet notes

/-- `POST /checkout` (`routes/logs.js`). -/
def checkout (db : DB) (pid : Nat) (pt : String) (exitT : Option Int)
    (notes : Option String) (now : Int) : Except CheckoutError CheckoutOk :=
  match findActiveLog db.logs pid pt with
  | none => Except.error CheckoutError.noActiveEntry
  | some l =>
    let updated := checkoutUpdate l exitT notes now
    let logs1 := saveLog db.logs updated
    let vlogs1 := updateFirstVlog db.vlogs l.logId (exitT.getD now) notes
    Except.ok { db := { db with logs := logs1, vlogs := vlogs1 }, log := updated }

/-! ## Schema index declarations (`models/Log.js`) -/

/-- A store index declaration: the indexed key paths with their sort
directions, the `unique` option, and whether a partial filter restricts the
index to open entries (a `partialFilterExpression` on an absent
`exitTime`). -/
structure IndexSpec where
  keys : List (String × Int)
  unique : Bool
  filteredToOpen : Bool
deriving Repr, DecidableEq

/-- The indexes `LogSchema` declares: the field-level `unique: true` on
`id_log`, then the four `LogSchema.index` calls, none of which passes an
options object (so no `unique` and no partial filter). -/
def logSchemaIndexes : List IndexSpec :=
  [ { keys := [("id_log", 1)], unique := true, filteredToOpen := false },
    { keys := [("person", 1), ("personType", 1)], unique := false, filteredToOpen := false },
    { keys := [("logDate", 1)], unique := false, filteredToOpen := false },
    { keys := [("status", 1)], unique := false, filteredToOpen := false },
    { keys := [("id_log", 1)], unique := false, filteredToOpen := false } ]

/-! ## AccessLog variant (`models/AccessLog.js`, `routes/accessLogs.js`) -/

/-- The duration computed by `AccessLogSchema.pre('save')`:
`Math.floor((exitTime - entryTime) / 60000)`, with no clamp at 0. -/
def accessLogPreSaveDuration (entryTime exitTime : Int) : Int :=
  Int.fdiv (exitTime - entryTime) 60000

/-- The duration computed by `LogSchema.pre('save')` and by the
`POST /checkout` route of `routes/logs.js`:
`Math.max(0, Math.floor((exitTime - entryTime) / 60000))`. -/
def logPreSaveDuration (entryTime exitTime : Int) : Int :=
  max 0 (Int.fdiv (exitTime - entryTime) 60000)

/-- One `AccessLog` document (the fields the checkout path touches). -/
structure ALogRec where
  person : Nat
  personType : String
  status : String
  entryTime : Option Int
  exitTime : Option Int
  duration : Int
  notes : String
deriving Repr, DecidableEq

/-- The `POST /checkout` mutation of `routes/accessLogs.js` followed by the
`AccessLogSchema.pre('save')` hook: the route sets `exitTime`, `status` and
the appended notes and saves; the hook then computes the unclamped duration.
Mongoose runs schema validation (the `min: 0` constraint on `duration`)
before user `pre('save')` hooks, so the hook's value is stored unchecked. -/
def accessLogCheckoutUpdate (l : ALogRec) (exitT : Option Int) (notes : Option String)
    (now : Int) : ALogRec :=
  let cet := exitT.getD now
  let newNotes :=
    match notes with
    | some s =>
      if s.isEmpty then l.notes
      else if l.notes.isEmpty then s else l.notes ++ " | " ++ s
    | none => l.notes
  let l1 : ALogRec := { l with exitTime := some cet, status := "exit", notes := newNotes }
  match l1.entryTime, l1.exitTime with
  | some et, some xt => { l1 with duration := accessLogPreSaveDuration et xt }
  | _, _ => l1

/-! ## Accounts and login (`models/User.js`, auth routes, `routes/userRoutes.js`) -/

/-- One `User` document. -/
structure UserRec where
  userId : Nat
  email : String
  password : String
  role : String
  isApproved : Bool
  isActive : Bool
  approvedBy : Option Nat
  approvedAt : Option Int
deriving Repr, DecidableEq

/-- The claims placed in the signed session token.  The auth route signs
`{id, email, role}`; the legacy `userRoutes.js` login signs only
`{id, email}` (modelled as `role := none`). -/
structure TokenClaims where
  id : Nat
  email : String
  role : Option String
deriving Repr, DecidableEq

inductive LoginError
  | invalidCredentials
  | pendingApproval
  | deactivated
deriving Repr, DecidableEq

/-- `User.findOne({email})`. -/
def findUserByEmail (users : List UserRec) (email : String) : Option UserRec :=
  users.find? (fun u => u.email == email)

/-- `POST /login` of the mounted auth routes: credential check, then
`isApproved` (403 pending approval), then `isActive` (403 deactivated), and
only then a signed token carrying `{id, email, role}`.  Password hashing is
external, so the bcrypt comparison is a parameter. -/
def authLogin (pwCompare : String → String → Bool) (users : List UserRec)
    (email password : String) : Except LoginError TokenClaims :=
  match findUserByEmail users email with
  | none => Except.error LoginError.invalidCredentials
  | some u =>
    if !pwCompare password u.password then Except.error LoginError.invalidCredentials
    else if !u.isApproved then Except.error LoginError.pendingApproval
    else if !u.isActive then Except.error LoginError.deactivated
    else Except.ok { id := u.userId, email := u.email, role := some u.role }

/-- `POST /login` of `routes/userRoutes.js`: credential check only — no
`isApproved` or `isActive` gate — then a signed token carrying
`{id, email}` with no role claim. -/
def userRoutesLogin (pwCompare : String → String → Bool) (users : List UserRec)
    (email password : String) : Except LoginError TokenClaims :=
  match findUserByEmail users email with
  | none => Except.error LoginError.invalidCredentials
  | some u =>
    if !pwCompare password u.password then Except.error LoginError.invalidCredentials
    else Except.ok { id := u.userId, email := u.email, role := none }

/-! ## Admin approval (`routes/admin.js`) -/

inductive ApproveError
  | notFound
  | notEligible
  | alreadyApproved
deriving Repr, DecidableEq

/-- `User.findById`. -/
def findUserById (users : List UserRec) (uid : Nat) : Option UserRec :=
  users.find? (fun u => u.userId == uid)

/-- `save()` of a fetched user document. -/
def saveUser (users : List UserRec) (uid : Nat) (u1 : UserRec) : List UserRec :=
  users.map (fun x => if x.userId == uid then u1 else x)

/-- The field update the approval routes apply to the fetched user. -/
def approveSet (adminId : Nat) (now : Int) (u : UserRec) : UserRec :=
  { u with isApproved := true, approvedBy := some adminId, approvedAt := some now }

/-- `PATCH /approve-user/:userId`: 404 for a missing user, 400 unless the
role is `sos`, 400 when already approved; otherwise set `isApproved`,
`approvedBy` and `approvedAt` and save.  (The repository's second variant of
this route additionally sets `isActive := true`; both share the guards and
the fields named here.) -/
def approveUser (users : List UserRec) (adminId uid : Nat) (now : Int) :
    Except ApproveError (List UserRec × UserRec) :=
  match findUserById users uid with
  | none => Except.error ApproveError.notFound
  | some u =>
    if u.role != "sos" then Except.error ApproveError.notEligible
    else if u.isApproved then Except.error ApproveError.alreadyApproved
    else Except.ok (saveUser users uid (approveSet adminId now u), approveSet adminId now u)

inductive BulkApproveError
  | missingUserIds
deriving Repr, DecidableEq

/-- The `updateMany` filter of `PATCH /bulk-approve`:
`{_id: {$in: userIds}, role: 'sos', isApproved: false}`. -/
def bulkEligible (userIds : List Nat) (u : UserRec) : Bool :=
  userIds.contains u.userId && u.role == "sos" && !u.isApproved

/-- The update applied to every document matched by `bulk-approve`. -/
def bulkApproveSet (adminId : Nat) (now : Int) (u : UserRec) : UserRec :=
  { u with isApproved := true, approvedBy := some adminId, approvedAt := some now }

/-- `PATCH /bulk-approve`: 400 when `userIds` is not a non-empty array;
otherwise one `updateMany` that sets the approval fields on every matched
user, answering with `modifiedCount`. -/
def bulkApprove (users : List UserRec) (adminId : Nat) (userIds : List Nat) (now : Int) :
    Except BulkApproveError (List UserRec × Nat) :=
  if userIds.isEmpty then Except.error BulkApproveError.missingUserIds
  else
    Except.ok
      (users.map (fun u => if bulkEligible userIds u then bulkApproveSet adminId now u else u),
       (users.filter (bulkEligible userIds)).length)

/-! ## Incident workflow (`models/Incident.js`, incident routes) -/

/-- One `Incident` document.  The schema's `status` enum admits only
`pending` and `resolved`; `resolvedAt` defaults to null. -/
structure IncidentRec where
  incId : Nat
  itype : String
  description : String
  date : Int
  status : String
  reportedBy : Nat
  default_priority : String
  resolvedAt : Option Int
deriving Repr, DecidableEq

inductive ResolveError
  | notFound
  | alreadyResolved
deriving Repr, DecidableEq

inductive StatusUpdateError
  | invalidStatus
  | notFound
deriving Repr, DecidableEq

/-- `Incident.findById`. -/
def findIncident (incs : List IncidentRec) (iid : Nat) : Option IncidentRec :=
  incs.find? (fun i => i.incId == iid)

/-- `PATCH /admin/:id/resolve` of the mounted incident routes: 404 for a
missing id, 400 for an already-resolved incident, otherwise
`findByIdAndUpdate` setting `status := resolved` and `resolvedAt := now`. -/
def resolveIncident (incs : List IncidentRec) (iid : Nat) (now : Int) :
    Except ResolveError (List IncidentRec × IncidentRec) :=
  match findIncident incs iid with
  | none => Except.error ResolveError.notFound
  | some inc =>
    if inc.status == "resolved" then Except.error ResolveError.alreadyResolved
    else
      let inc1 : IncidentRec := { inc with status := "resolved", resolvedAt := some now }
      Except.ok (incs.map (fun x => if x.incId == iid then inc1 else x), inc1)

/-- `PATCH /admin/:id/status` of `routes/Incidents.js`: accepts any status
in `{pending, approved, rejected, resolved}` (400 otherwise), 404 for a
missing id, then `findByIdAndUpdate` with `{status}` plus `resolvedAt` when
resolving.  The route also places `approvedBy`/`approvedAt`/`adminNotes`/
`priority` in the update, but none of those paths exist in the Incident
schema, so strict mode strips them; and `findByIdAndUpdate` does not run the
enum validator, so every status in the route's list is written as-is. -/
def updateIncidentStatus (incs : List IncidentRec) (iid : Nat) (newStatus : String)
    (now : Int) : Except StatusUpdateError (List IncidentRec × IncidentRec) :=
  if !(["pending", "approved", "rejected", "resolved"].contains newStatus) then
    Except.error StatusUpdateError.invalidStatus
  else
    match findIncident incs iid with
    | none => Except.error StatusUpdateError.notFound
    | some inc =>
      let ra := if newStatus == "resolved" then some now else inc.resolvedAt
      let inc1 : IncidentRec := { inc with status := newStatus, resolvedAt := ra }
      Except.ok (incs.map (fun x => if x.incId == iid then inc1 else x), inc1)

/-! ## Helper lemmas -/

/-- If no record matches the `(supplier, month)` key, `incrementVisit`
appends the fresh upsert document at the end of the store. -/
theorem incrementVisit_fst_of_none (mvs : List MVRec) (sup : Nat) (d : JsDate)
    (h : mvs.filter (fun r => r.supplier == sup && r.month == d.isoYM) = []) :
    (incrementVisit mvs sup d).fst = mvs ++ [freshMV sup d] := by
  induction mvs with
  | nil => simp [incrementVisit]
  | cons r rest ih =>
    rw [List.filter_cons] at h
    cases hp : (r.supplier == sup && r.month == d.isoYM) with
    | true => simp [hp] at h
    | false =>
      simp only [hp, if_neg Bool.false_ne_true] at h
      simp [incrementVisit, hp, ih h]

/-- How `incrementVisit` acts on the set of records matching the key: an
empty match set becomes the singleton fresh record, otherwise the first
matching record is incremented in place and the rest are untouched. -/
theorem incrementVisit_filter (mvs : List MVRec) (sup : Nat) (d : JsDate) :
    (incrementVisit mvs sup d).fst.filter (fun r => r.supplier == sup && r.month == d.isoYM)
      = match mvs.filter (fun r => r.supplier == sup && r.month == d.isoYM) with
        | [] => [freshMV sup d]
        | r :: rest => applyIncrement r d :: rest := by
  induction mvs with
  | nil => simp [incrementVisit, freshMV]
  | cons r rest ih =>
    cases hp : (r.supplier == sup && r.month == d.isoYM) with
    | true =>
      have hp1 : ((applyIncrement r d).supplier == sup
          && (applyIncrement r d).month == d.isoYM) = true := by
        simpa [applyIncrement] using hp
      simp [incrementVisit, hp, List.filter_cons, hp1]
    | false =>
      simp [incrementVisit, hp, List.filter_cons, ih]

/-! ## C3: monthly visit counter -/

/-- C3: for a supplier `S` and month key `M` with no prior record, `N`
sequential `incrementVisit` calls leave exactly one record for the key and
its `visitCount` is `N`; the first call creates exactly one record with
`visitCount = 1` through the single atomic upsert-and-increment; and
`getVisitCount` returns 0 rather than an error when no record exists. -/
theorem monthly_visit_counting (mvs : List MVRec) (sup : Nat) (d : JsDate)
    (h : mvs.filter (fun r => r.supplier == sup && r.month == d.isoYM) = []) :
    (∀ n : Nat,
      (incrementN mvs sup d (n + 1)).filter (fun r => r.supplier == sup && r.month == d.isoYM)
        = [{ supplier := sup, month := d.isoYM, year := d.year,
             visitCount := (n : Int) + 1, lastVisit := some d.ms }])
    ∧ (incrementVisit mvs sup d).fst
        = mvs ++ [{ supplier := sup, month := d.isoYM, year := d.year,
                    visitCount := 1, lastVisit := some d.ms }]
    ∧ getVisitCount mvs sup d.isoYM = 0 := by
  refine ⟨?_, ?_, ?_⟩
  · intro n
    induction n with
    | zero =>
      rw [incrementN, incrementN, incrementVisit_filter, h]
      simp [freshMV]
    | succ n ih =>
      rw [incrementN, incrementVisit_filter, ih]
      simp only [applyIncrement]
      norm_num
  · rw [incrementVisit_fst_of_none mvs sup d h]
    simp [freshMV]
  · have h3 : findOneMV mvs sup d.isoYM = none := by
      rw [findOneMV, List.find?_eq_none]
      intro x hx
      have h4 := List.filter_eq_nil_iff.mp h x hx
      simpa using h4
    simp [getVisitCount, h3]

/-- A concrete visit date for the monthly-counter witness. -/
def dW : JsDate := { ms := 1718409600000, isoYM := "2024-06", year := 2024 }

/-- Witness for C3: starting from an empty store, three increments for
supplier 1 in June 2024 leave exactly one record with `visitCount = 3`. -/
theorem monthly_visit_counting_witness :
    ([] : List MVRec).filter (fun r => r.supplier == 1 && r.month == dW.isoYM) = []
    ∧ (incrementN [] 1 dW 3).filter (fun r => r.supplier == 1 && r.month == dW.isoYM)
        = [{ supplier := 1, month := "2024-06", year := 2024,
             visitCount := 3, lastVisit := some 1718409600000 }]
    ∧ getVisitCount [] 1 dW.isoYM = 0 := by
  have h := monthly_visit_counting [] 1 dW rfl
  refine ⟨rfl, ?_, h.2.2⟩
  have h1 := h.1 2
  norm_num at h1
  simpa [dW] using h1

/-! ## C1: at-most-one-open-entry and the missing store constraint -/

/-- A check-in request for supplier 7 with no vehicle and no explicit times. -/
def raceReq : CheckinReq :=
  { personId := some 7, personType := some "Supplier", vehicleId := none,
    entryTime := none, notes := none, parkingLocation := none }

/-- The shared request time of the two racing check-ins. -/
def raceDate : JsDate := { ms := 0, isoYM := "2024-06", year := 2024 }

/-- A store with no records. -/
def emptyDB : DB := { logs := [], vlogs := [], monthly := [] }

/-- First racing check-in: its open-entry guard read the empty store. -/
def raceStep1 : CheckinOk := checkinApply emptyDB 7 "Supplier" raceReq raceDate 1 9 false

/-- Second racing check-in: its open-entry guard also read the empty store
(before the first insert committed), so its insert phase runs as well. -/
def raceStep2 : CheckinOk := checkinApply raceStep1.db 7 "Supplier" raceReq raceDate 2 9 false

/-- C1: the check-then-create guard of `POST /checkin` holds sequentially
(the second of two sequential check-ins fails with the already-checked-in
conflict), but `LogSchema` declares no unique index restricted to open
entries — its `(person, personType)` index is not unique and no index
carries a partial filter — so two concurrent check-ins whose guards both
read the store before either insert leave two open entries for the same
`(personId, personType)` pair instead of failing at the store. -/
theorem open_entry_constraint_missing :
    findActiveLog emptyDB.logs 7 "Supplier" = none
    ∧ checkin raceStep1.db raceReq raceDate 2 9 false
        = Except.error CheckinError.alreadyCheckedIn
    ∧ countOpenFor raceStep2.db.logs 7 "Supplier" = 2
    ∧ logSchemaIndexes.all (fun i => !(i.unique && i.filteredToOpen)) = true
    ∧ (logSchemaIndexes.filter
        (fun i => i.keys == [("person", 1), ("personType", 1)])).all
        (fun i => !i.unique) = true :=
  ⟨rfl, rfl, by decide, by decide, by decide⟩

/-! ## C2: duration computation and the unclamped AccessLog hook -/

/-- An open `AccessLog` entry whose `entryTime` is one hour past the epoch. -/
def alOpen : ALogRec :=
  { person := 7, personType := "Supplier", status := "entry",
    entryTime := some 3600000, exitTime := none, duration := 0, notes := "" }

/-- The corresponding open `Log` entry for the clamped variant. -/
def lgOpen : LogRec :=
  { logId := 1, person := 7, personType := "Supplier", status := "entry",
    entryTime := some 3600000, exitTime := none, duration := 0,
    logDate := 3600000, notes := "", recordedBy := 9 }

/-- C2: checking out an `AccessLog` entry with an `exitTime` one hour before
its `entryTime` stores `duration = -60`: the `AccessLogSchema.pre('save')`
hook computes `Math.floor((exitTime - entryTime) / 60000)` with no clamp,
violating duration non-negativity, while the `Log` route and
`LogSchema.pre('save')` clamp the same input to 0. -/
theorem accessLog_duration_not_clamped :
    (accessLogCheckoutUpdate alOpen (some 0) none 0).duration = -60
    ∧ (accessLogCheckoutUpdate alOpen (some 0) none 0).duration < 0
    ∧ accessLogPreSaveDuration 3600000 0 = -60
    ∧ (checkoutUpdate lgOpen (some 0) none 0).duration = 0
    ∧ logPreSaveDuration 3600000 0 = 0 := by
  decide

/-! ## C4: login approval and activation gates -/

/-- The external bcrypt comparison, instantiated for concrete runs as plain
equality of the supplied password with the stored digest. -/
def strEq : String → String → Bool := fun p dg => p == dg

/-- An `sos` account that is neither approved nor active. -/
def pendingUser : UserRec :=
  { userId := 5, email := "sos@example.com", password := "pw", role := "sos",
    isApproved := false, isActive := false, approvedBy := none, approvedAt := none }

/-- The same account once approved but still inactive. -/
def inactiveUser : UserRec := { pendingUser with isApproved := true }

/-- C4: the login of `routes/userRoutes.js` issues a signed session token
(carrying only `{userId, email}`, no role claim) to an account that is
neither approved nor active, because it checks only the credentials; the
mounted auth-route login on the same store fails with the pending-approval
error for that account and with the deactivated error once the account is
approved but inactive. -/
theorem userRoutes_login_skips_approval_gate :
    userRoutesLogin strEq [pendingUser] "sos@example.com" "pw"
      = Except.ok { id := 5, email := "sos@example.com", role := none }
    ∧ authLogin strEq [pendingUser] "sos@example.com" "pw"
      = Except.error LoginError.pendingApproval
    ∧ authLogin strEq [inactiveUser] "sos@example.com" "pw"
      = Except.error LoginError.deactivated :=
  ⟨rfl, rfl, rfl⟩

/-! ## C9: incident status transitions -/

/-- A resolved incident with `resolvedAt` set. -/
def resolvedInc : IncidentRec :=
  { incId := 1, itype := "Fire", description := "test", date := 0,
    status := "resolved", reportedBy := 5, default_priority := "high",
    resolvedAt := some 100 }

/-- `resolvedInc` after the admin status route moved it back to pending. -/
def pendingAgain : IncidentRec := { resolvedInc with status := "pending" }

/-- C9 counterexample: the admin status-update route of
`routes/Incidents.js` accepts `status = "pending"` for a resolved incident
and succeeds, moving the incident back to `pending` (its stale `resolvedAt`
stays set), so incident transitions are not one-directional. -/
theorem incident_moved_back_to_pending :
    updateIncidentStatus [resolvedInc] 1 "pending" 200
      = Except.ok ([pendingAgain], pendingAgain)
    ∧ resolvedInc.status = "resolved"
    ∧ pendingAgain.status = "pending"
    ∧ pendingAgain.resolvedAt = some 100 :=
  ⟨rfl, rfl, rfl, rfl⟩

/-! ## C7: check-out contract -/

/-- C7: `POST /checkout` fails with the no-active-entry error when no open
entry exists for the `(personId, personType)` pair; on success it sets
`status` to `exit` and `exitTime` to the provided time or now, leaves
`entryTime`, `person`, `personType` and `logDate` unchanged, and appends
non-empty supplied notes to non-empty existing notes with a " | " separator
(existing empty notes are simply replaced, absent notes leave the field
unchanged). -/
theorem checkout_contract (db : DB) (pid : Nat) (pt : String) (exitT : Option Int)
    (notes : Option String) (now : Int) :
    (findActiveLog db.logs pid pt = none →
      checkout db pid pt exitT notes now = Except.error CheckoutError.noActiveEntry)
    ∧ (∀ l, findActiveLog db.logs pid pt = some l →
        ∀ ok, checkout db pid pt exitT notes now = Except.ok ok →
          ok.log.status = "exit"
          ∧ ok.log.exitTime = some (exitT.getD now)
          ∧ ok.log.entryTime = l.entryTime
          ∧ ok.log.person = l.person
          ∧ ok.log.personType = l.personType
          ∧ ok.log.logDate = l.logDate
          ∧ (∀ s, notes = some s → s.isEmpty = false → l.notes.isEmpty = false →
              ok.log.notes = l.notes ++ " | " ++ s)
          ∧ (∀ s, notes = some s → s.isEmpty = false → l.notes.isEmpty = true →
              ok.log.notes = s)
          ∧ (notes = none → ok.log.notes = l.notes)) := by
  constructor
  · intro h
    simp [checkout, h]
  · intro l hl ok hok
    rw [checkout] at hok
    rw [hl] at hok
    simp only [Except.ok.injEq] at hok
    subst hok
    refine ⟨by simp [checkoutUpdate], by simp [checkoutUpdate], by simp [checkoutUpdate],
      by simp [checkoutUpdate], by simp [checkoutUpdate], by simp [checkoutUpdate],
      ?_, ?_, ?_⟩
    · intro s hs h1 h2
      simp [checkoutUpdate, hs, h1, h2]
    · intro s hs h1 h2
      simp [checkoutUpdate, hs, h1, h2]
    · intro hn
      simp [checkoutUpdate, hn]

/-- The open log record of the shared check-out fixture. -/
def lW : LogRec :=
  { logId := 1, person := 7, personType := "Worker", status := "entry",
    entryTime := some 0, exitTime := none, duration := 0, logDate := 0,
    notes := "in", recordedBy := 9 }

/-- A vehicle log mirroring `lW`. -/
def wV : VLogRec :=
  { vehicle := 3, log := 1, entry_time := 0, exit_time := none, vlog_date := 0,
    parkingLocation := "", vehicleNotes := "", recordedBy := 9 }

/-- The store of the check-out fixture: one open entry with its vehicle log. -/
def dbW : DB := { logs := [lW], vlogs := [wV], monthly := [] }

/-- `lW` after checking out at 120000 ms with notes "bye". -/
def lWout : LogRec :=
  { logId := 1, person := 7, personType := "Worker", status := "exit",
    entryTime := some 0, exitTime := some 120000, duration := 2, logDate := 0,
    notes := "in | bye", recordedBy := 9 }

/-- `wV` after the mirror update of that check-out. -/
def wVout : VLogRec := { wV with exit_time := some 120000, vehicleNotes := "bye" }

/-- The full result of that check-out. -/
def okW : CheckoutOk :=
  { db := { logs := [lWout], vlogs := [wVout], monthly := [] }, log := lWout }

/-- Witness for C7: checking out worker 7 from `dbW` at 120000 ms with notes
"bye" succeeds, closes the entry and appends the notes after " | ". -/
theorem checkout_contract_witness :
    findActiveLog dbW.logs 7 "Worker" = some lW
    ∧ lWout.status = "exit"
    ∧ lWout.exitTime = some 120000
    ∧ lWout.entryTime = lW.entryTime
    ∧ lWout.notes = lW.notes ++ " | " ++ "bye" := by
  have h := (checkout_contract dbW 7 "Worker" (some 120000) (some "bye") 0).2 lW rfl okW rfl
  exact ⟨rfl, h.1, h.2.1, h.2.2.1, h.2.2.2.2.2.2.1 "bye" rfl rfl rfl⟩

/-! ## C5: vehicle mirror consistency -/

/-- When at most one vehicle log references a given parent log id, every
vehicle log referencing that id carries `exit_time = some cet` after the
mirror update. -/
theorem updateFirstVlog_exit (vlogs : List VLogRec) (lid : Nat) (cet : Int)
    (notes : Option String)
    (h : (vlogs.filter (fun w => w.log == lid)).length ≤ 1) :
    ∀ w ∈ updateFirstVlog vlogs lid cet notes, w.log = lid → w.exit_time = some cet := by
  induction vlogs with
  | nil => intro w hw; simp [updateFirstVlog] at hw
  | cons w0 rest ih =>
    intro w hw hwl
    cases h0 : (w0.log == lid) with
    | true =>
      rw [List.filter_cons, if_pos h0] at h
      simp only [List.length_cons] at h
      have hrest : rest.filter (fun w => w.log == lid) = [] := by
        have hlen : (rest.filter (fun w => w.log == lid)).length = 0 := by omega
        exact List.length_eq_zero.mp hlen
      simp only [updateFirstVlog, if_pos h0, List.mem_cons] at hw
      rcases hw with hw | hw
      · subst hw; rfl
      · exfalso
        have h5 := List.filter_eq_nil_iff.mp hrest w hw
        simp [hwl] at h5
    | false =>
      rw [List.filter_cons, if_neg (by simp [h0])] at h
      simp only [updateFirstVlog, if_neg (by simp [h0] : ¬(w0.log == lid) = true),
        List.mem_cons] at hw
      rcases hw with hw | hw
      · subst hw
        simp [hwl] at h0
      · exact ih h w hw hwl

/-- C5: the vehicle-presence record mirrors its parent: check-in creates the
linked vehicle log with `entry_time` equal to the parent's `entryTime`, and
after a successful check-out every vehicle log linked to the closed entry
(unique per parent) has `exit_time` equal to the parent's new `exitTime`. -/
theorem vehicle_mirror (db : DB) (pid : Nat) (pt : String) (req : CheckinReq)
    (now : JsDate) (fid rb : Nat) (fails : Bool) (exitT : Option Int)
    (notes : Option String) (nowMs : Int) (l : LogRec)
    (hfind : findActiveLog db.logs pid pt = some l)
    (hone : (db.vlogs.filter (fun w => w.log == l.logId)).length ≤ 1) :
    (∀ w, (checkinApply db pid pt req now fid rb fails).vehicleLog = some w →
      some w.entry_time = (checkinApply db pid pt req now fid rb fails).log.entryTime
      ∧ w.log = (checkinApply db pid pt req now fid rb fails).log.logId)
    ∧ (∀ ok, checkout db pid pt exitT notes nowMs = Except.ok ok →
        ok.log.exitTime = some (exitT.getD nowMs)
        ∧ ∀ w ∈ ok.db.vlogs, w.log = l.logId → w.exit_time = ok.log.exitTime) := by
  constructor
  · intro w hw
    cases hv : req.vehicleId with
    | none => simp [checkinApply, hv] at hw
    | some v =>
      simp only [checkinApply, hv, Option.some.injEq] at hw
      subst hw
      simp [checkinApply]
  · intro ok hok
    rw [checkout] at hok
    rw [hfind] at hok
    simp only [Except.ok.injEq] at hok
    subst hok
    refine ⟨by simp [checkoutUpdate], ?_⟩
    intro w hw hwl
    have h6 := updateFirstVlog_exit db.vlogs l.logId (exitT.getD nowMs) notes hone w hw hwl
    rw [h6]
    simp [checkoutUpdate]

/-- Witness for C5: in the `dbW` fixture the check-out at 120000 ms
propagates the parent's `exitTime` to its vehicle log, and a check-in with
vehicle 3 creates a vehicle log carrying the parent's `entryTime`. -/
theorem vehicle_mirror_witness :
    findActiveLog dbW.logs 7 "Worker" = some lW
    ∧ (dbW.vlogs.filter (fun w => w.log == lW.logId)).length ≤ 1
    ∧ wVout.exit_time = okW.log.exitTime
    ∧ wVout ∈ okW.db.vlogs := by
  have h := vehicle_mirror dbW 7 "Worker" raceReq raceDate 1 9 false (some 120000)
    (some "bye") 0 lW rfl (by decide)
  have h2 := (h.2 okW rfl).2 wVout (by simp [okW]) rfl
  exact ⟨rfl, by decide, h2, by simp [okW]⟩

/-! ## C6: best-effort monthly increment during check-in -/

/-- C6: a guarded check-in always succeeds regardless of the monthly
counter; the saved log is in the resulting store and the log save is the
first store write, with the increment attempt (for suppliers) coming right
after it; the counter is touched exactly once if and only if the person is
a supplier and the increment does not fail; and a failed increment leaves
the counter store untouched while the check-in still succeeds with a null
monthly count in the response. -/
theorem checkin_monthly_best_effort (db : DB) (req : CheckinReq) (now : JsDate)
    (fid rb : Nat) (fails : Bool) (pid : Nat) (pt : String)
    (hpid : req.personId = some pid) (hpt : req.personType = some pt)
    (hvalid : (["Supplier", "Worker", "LeoniPersonnel"].contains pt) = true)
    (hguard : findActiveLog db.logs pid pt = none) :
    (checkin db req now fid rb fails).isOk = true
    ∧ (∀ r, checkin db req now fid rb fails = Except.ok r →
        r.log ∈ r.db.logs
        ∧ r.events.head? = some (Event.logSaved fid)
        ∧ (pt = "Supplier" →
            r.events.get? 1 = some (if fails then Event.monthlyIncrementFailed pid
              else Event.monthlyIncremented pid))
        ∧ (pt ≠ "Supplier" → r.db.monthly = db.monthly ∧ r.monthlyVisitCount = none)
        ∧ (fails = true → r.db.monthly = db.monthly ∧ r.monthlyVisitCount = none)
        ∧ (pt = "Supplier" → fails = false →
            r.db.monthly = (incrementVisit db.monthly pid (req.entryTime.getD now)).fst
            ∧ r.monthlyVisitCount
              = some (incrementVisit db.monthly pid (req.entryTime.getD now)).snd.visitCount)) := by
  have hc : (!(["Supplier", "Worker", "LeoniPersonnel"].contains pt)) = false := by
    rw [hvalid]
    rfl
  have hred : checkin db req now fid rb fails
      = Except.ok (checkinApply db pid pt req now fid rb fails) := by
    simp only [checkin, hpid, hpt, hc, Bool.false_eq_true, if_false, hguard]
  constructor
  · rw [hred]; rfl
  · intro r hr
    rw [hred] at hr
    simp only [Except.ok.injEq] at hr
    subst hr
    refine ⟨by simp [checkinApply], by simp [checkinApply], ?_, ?_, ?_, ?_⟩
    · intro hsup
      subst hsup
      simp [checkinApply]
    · intro hne
      have hb : (pt == "Supplier") = false := beq_eq_false_iff_ne.mpr hne
      constructor
      · simp [checkinApply, hb]
      · simp [checkinApply, hb]
    · intro hf
      subst hf
      constructor
      · simp [checkinApply]
      · simp [checkinApply]
    · intro hsup hf
      subst hsup
      subst hf
      constructor
      · simp [checkinApply]
      · simp [checkinApply]

/-- The log record created by the C6 witness check-in. -/
def logC6 : LogRec :=
  { logId := 1, person := 7, personType := "Supplier", status := "entry",
    entryTime := some 0, exitTime := none, duration := 0, logDate := 0,
    notes := "", recordedBy := 9 }

/-- The full result of the C6 witness check-in, whose monthly increment
fails. -/
def rC6 : CheckinOk :=
  { db := { logs := [logC6], vlogs := [], monthly := [] }, log := logC6,
    vehicleLog := none, monthlyVisitCount := none,
    events := [Event.logSaved 1, Event.monthlyIncrementFailed 7] }

/-- Witness for C6: a supplier check-in on the empty store whose monthly
increment fails still succeeds, saves the log first, attempts the increment
second, leaves the counter store untouched, and reports a null monthly
count. -/
theorem checkin_monthly_best_effort_witness :
    (checkin emptyDB raceReq raceDate 1 9 true).isOk = true
    ∧ rC6.log ∈ rC6.db.logs
    ∧ rC6.events.head? = some (Event.logSaved 1)
    ∧ rC6.events.get? 1 = some (Event.monthlyIncrementFailed 7)
    ∧ rC6.db.monthly = emptyDB.monthly
    ∧ rC6.monthlyVisitCount = none := by
  have h := checkin_monthly_best_effort emptyDB raceReq raceDate 1 9 true 7 "Supplier"
    rfl rfl (by decide) rfl
  have h2 := h.2 rC6 rfl
  have h3 := h2.2.2.1 rfl
  have h4 := h2.2.2.2.2.1 rfl
  exact ⟨h.1, h2.1, h2.2.1, by simpa using h3, h4.1, h4.2⟩

/-! ## C8: single-user approval -/

/-- After saving an updated user document whose id matches the lookup key,
the lookup finds exactly that document. -/
theorem findUserById_saveUser (users : List UserRec) (uid : Nat) (u1 : UserRec)
    (h1 : (u1.userId == uid) = true) (h : (findUserById users uid).isSome = true) :
    findUserById (saveUser users uid u1) uid = some u1 := by
  induction users with
  | nil => simp [findUserById] at h
  | cons x rest ih =>
    rw [saveUser, List.map_cons]
    by_cases hx : (x.userId == uid) = true
    · rw [if_pos hx, findUserById]
      simp only [List.find?, h1]
    · have hx2 : (x.userId == uid) = false := by simpa using hx
      rw [if_neg hx, findUserById]
      simp only [List.find?, hx2]
      rw [findUserById] at h
      simp only [List.find?, hx2] at h
      have h3 := ih h
      rw [saveUser] at h3
      exact h3

/-- C8: `PATCH /approve-user/:userId` fails with not-found for a missing
user, not-eligible when the target's role is not `sos`, and
already-approved when `isApproved` is already set; on success it records
`isApproved`, `approvedBy = adminId` and `approvedAt`, and a second
approval of the same user is rejected with already-approved rather than
silently accepted. -/
theorem approve_user_contract (users : List UserRec) (adminId uid : Nat) (now : Int)
    (a2 : Nat) (n2 : Int) :
    (findUserById users uid = none →
      approveUser users adminId uid now = Except.error ApproveError.notFound)
    ∧ (∀ u, findUserById users uid = some u →
        (u.role ≠ "sos" →
          approveUser users adminId uid now = Except.error ApproveError.notEligible)
        ∧ (u.role = "sos" → u.isApproved = true →
          approveUser users adminId uid now = Except.error ApproveError.alreadyApproved)
        ∧ (u.role = "sos" → u.isApproved = false →
          ∀ p, approveUser users adminId uid now = Except.ok p →
            p.snd.isApproved = true
            ∧ p.snd.approvedBy = some adminId
            ∧ p.snd.approvedAt = some now
            ∧ approveUser p.fst a2 uid n2 = Except.error ApproveError.alreadyApproved)) := by
  constructor
  · intro h
    simp [approveUser, h]
  · intro u hu
    refine ⟨?_, ?_, ?_⟩
    · intro hne
      have hb : (u.role != "sos") = true := bne_iff_ne.mpr hne
      simp [approveUser, hu, hb]
    · intro hr ha
      have hb : (u.role != "sos") = false := by simp [hr]
      simp [approveUser, hu, hb, ha]
    · intro hr ha p hp
      have hb : (u.role != "sos") = false := by simp [hr]
      simp only [approveUser, hu, hb, Bool.false_eq_true, if_false, ha,
        Except.ok.injEq] at hp
      subst hp
      have hu1id : ((approveSet adminId now u).userId == uid) = true := by
        simpa [approveSet] using List.find?_some hu
      have hsome : (findUserById users uid).isSome = true := by rw [hu]; rfl
      have hf := findUserById_saveUser users uid (approveSet adminId now u) hu1id hsome
      refine ⟨rfl, rfl, rfl, ?_⟩
      have hb2 : ((approveSet adminId now u).role != "sos") = false := by
        simp [approveSet, hr]
      simp only [approveUser, hf]
      simp [hb2, approveSet, hr]

/-- `pendingUser` once approved by admin 2 at time 50. -/
def approvedU : UserRec :=
  { pendingUser with isApproved := true, approvedBy := some 2, approvedAt := some 50 }

/-- The store/document pair returned by the witness approval. -/
def pC8 : List UserRec × UserRec := ([approvedU], approvedU)

/-- Witness for C8: approving the pending `sos` account sets the approval
fields, and approving it a second time fails with already-approved. -/
theorem approve_user_contract_witness :
    findUserById [pendingUser] 5 = some pendingUser
    ∧ approvedU.isApproved = true
    ∧ approvedU.approvedBy = some 2
    ∧ approvedU.approvedAt = some 50
    ∧ approveUser pC8.fst 3 5 60 = Except.error ApproveError.alreadyApproved := by
  have h := (approve_user_contract [pendingUser] 2 5 50 3 60).2 pendingUser rfl
  have h2 := h.2.2 rfl rfl pC8 rfl
  exact ⟨rfl, h2.1, h2.2.1, h2.2.2.1, h2.2.2.2⟩

/-- C9 (amended): the resolve route fails with not-found for a missing
incident id, rejects resolving an already-resolved incident, and on success
sets `status = resolved` and `resolvedAt`; neither the resolve route nor the
admin status-update route ever clears a set `resolvedAt` (the result's
`resolvedAt` is either freshly set or carried over unchanged); but the
status-update route can set a resolved incident's status back to `pending`,
so transitions are not one-directional. -/
theorem incident_resolution_contract (incs : List IncidentRec) (iid : Nat) (now : Int) :
    (findIncident incs iid = none →
      resolveIncident incs iid now = Except.error ResolveError.notFound)
    ∧ (∀ inc, findIncident incs iid = some inc →
        (inc.status = "resolved" →
          resolveIncident incs iid now = Except.error ResolveError.alreadyResolved)
        ∧ (∀ p, resolveIncident incs iid now = Except.ok p →
            p.snd.status = "resolved" ∧ p.snd.resolvedAt = some now)
        ∧ (∀ p, updateIncidentStatus incs iid "pending" now = Except.ok p →
            p.snd.status = "pending" ∧ p.snd.resolvedAt = inc.resolvedAt)
        ∧ (∀ st p, updateIncidentStatus incs iid st now = Except.ok p →
            p.snd.resolvedAt = some now ∨ p.snd.resolvedAt = inc.resolvedAt)) := by
  constructor
  · intro h
    simp [resolveIncident, h]
  · intro inc hinc
    refine ⟨?_, ?_, ?_, ?_⟩
    · intro hres
      have hb : (inc.status == "resolved") = true := by simp [hres]
      simp [resolveIncident, hinc, hb]
    · intro p hp
      simp only [resolveIncident, hinc] at hp
      by_cases hb : (inc.status == "resolved") = true
      · simp [hb] at hp
      · have hb2 : (inc.status == "resolved") = false := by simpa using hb
        simp only [hb2, Bool.false_eq_true, if_false, Except.ok.injEq] at hp
        subst hp
        exact ⟨rfl, rfl⟩
    · intro p hp
      simp only [updateIncidentStatus, hinc] at hp
      simp only [List.contains_cons, Bool.not_eq_true] at hp
      norm_num at hp
      subst hp
      exact ⟨rfl, rfl⟩
    · intro st p hp
      simp only [updateIncidentStatus] at hp
      split at hp
      · simp at hp
      · rw [hinc] at hp
        simp only [Except.ok.injEq] at hp
        subst hp
        by_cases hs : st = "resolved"
        · left
          simp [hs]
        · right
          simp [hs]

/-- A pending incident for the C9 witness. -/
def pendingInc : IncidentRec :=
  { incId := 2, itype := "Fire", description := "x", date := 0,
    status := "pending", reportedBy := 5, default_priority := "high",
    resolvedAt := none }

/-- `pendingInc` after being resolved at time 300. -/
def resolvedOut : IncidentRec := { pendingInc with status := "resolved", resolvedAt := some 300 }

/-- The result of resolving `pendingInc`. -/
def pRes : List IncidentRec × IncidentRec := ([resolvedOut], resolvedOut)

/-- Witness for C9: resolving the pending incident sets `status` and
`resolvedAt`, and resolving the already-resolved fixture is rejected. -/
theorem incident_resolution_contract_witness :
    findIncident [pendingInc] 2 = some pendingInc
    ∧ resolvedOut.status = "resolved"
    ∧ resolvedOut.resolvedAt = some 300
    ∧ resolveIncident [resolvedInc] 1 400 = Except.error ResolveError.alreadyResolved := by
  have h := (incident_resolution_contract [pendingInc] 2 300).2 pendingInc rfl
  have h1 := h.2.1 pRes rfl
  have h2 := (incident_resolution_contract [resolvedInc] 1 400).2 resolvedInc rfl
  exact ⟨rfl, h1.1, h1.2, h2.1 rfl⟩

/-! ## C10: bulk approval -/

/-- Zipping a list with its image under `f` pairs every element with its
image. -/
theorem zip_map_snd {α β : Type} (f : α → β) (l : List α) :
    ∀ pr ∈ l.zip (l.map f), pr.snd = f pr.fst := by
  induction l with
  | nil => intro pr hpr; simp at hpr
  | cons a rest ih =>
    intro pr hpr
    rw [List.map_cons, List.zip_cons_cons] at hpr
    rcases List.mem_cons.mp hpr with h | h
    · subst h; rfl
    · exact ih pr h

/-- C10: `PATCH /bulk-approve` rejects an empty id array; otherwise it
succeeds, touching exactly the submitted users that have role `sos` and are
not yet approved — each of those receives `isApproved` with the same
`approvedBy` and `approvedAt` — while missing, admin-role or
already-approved ids are silently skipped (their records unchanged, no
error), and the response reports the number of users actually modified. -/
theorem bulk_approve_contract (users : List UserRec) (adminId : Nat)
    (userIds : List Nat) (now : Int) (h : userIds ≠ []) :
    bulkApprove users adminId [] now = Except.error BulkApproveError.missingUserIds
    ∧ (∀ p, bulkApprove users adminId userIds now = Except.ok p →
        p.snd = (users.filter (bulkEligible userIds)).length
        ∧ p.fst.length = users.length
        ∧ (∀ pr ∈ users.zip p.fst,
            (bulkEligible userIds pr.fst = true →
              pr.snd = bulkApproveSet adminId now pr.fst
              ∧ pr.snd.isApproved = true
              ∧ pr.snd.approvedBy = some adminId
              ∧ pr.snd.approvedAt = some now)
            ∧ (bulkEligible userIds pr.fst = false → pr.snd = pr.fst))) := by
  constructor
  · simp [bulkApprove]
  · intro p hp
    have hne : userIds.isEmpty = false := by
      cases userIds with
      | nil => exact absurd rfl h
      | cons a rest => rfl
    simp only [bulkApprove, hne, Bool.false_eq_true, if_false, Except.ok.injEq] at hp
    subst hp
    refine ⟨rfl, by simp, ?_⟩
    intro pr hpr
    have hsnd := zip_map_snd
      (fun u => if bulkEligible userIds u then bulkApproveSet adminId now u else u) users pr hpr
    constructor
    · intro he
      have hx : pr.snd = bulkApproveSet adminId now pr.fst := by
        rw [hsnd]
        simp [he]
      rw [hx]
      exact ⟨rfl, rfl, rfl, rfl⟩
    · intro he
      rw [hsnd]
      simp [he]

/-- An active admin account for the bulk-approve witness. -/
def admU : UserRec :=
  { userId := 8, email := "adm@example.com", password := "pw2", role := "admin",
    isApproved := true, isActive := true, approvedBy := none, approvedAt := none }

/-- The bulk-approve witness store: one pending `sos` user, one admin. -/
def usersC10 : List UserRec := [pendingUser, admU]

/-- `pendingUser` as modified by the witness bulk approval. -/
def bulkOut : UserRec := bulkApproveSet 2 70 pendingUser

/-- The witness bulk-approve result: one user modified, the admin skipped. -/
def pC10 : List UserRec × Nat := ([bulkOut, admU], 1)

/-- Witness for C10: bulk-approving ids `[5, 8, 99]` (a pending sos user, an
admin, and a missing id) modifies exactly the pending sos user and reports
`approvedCount = 1`. -/
theorem bulk_approve_contract_witness :
    pC10.snd = 1
    ∧ pC10.fst.length = usersC10.length
    ∧ bulkOut = bulkApproveSet 2 70 pendingUser
    ∧ bulkOut.isApproved = true
    ∧ bulkOut.approvedBy = some 2
    ∧ bulkOut.approvedAt = some 70 := by
  have h := (bulk_approve_contract usersC10 2 [5, 8, 99] 70 (by decide)).2 pC10 rfl
  have hy := (h.2.2 (pendingUser, bulkOut) (by decide)).1 (by decide)
  exact ⟨by decide, h.2.1, hy.1, hy.2.1, hy.2.2.1, hy.2.2.2⟩

end Backend
